import Mathlib

/-!
Verification of the persona / portfolio analysis engine.

This file gives a shallow embedding, in Lean 4, of the computational core of
the repository: the transfer-ledger reducer and fallback balance
reconstruction (`services/portfolio_service.py`), the portfolio snapshot
derived metrics (`models/portfolio_models.py`), the swap-activity analyzer
(`services/activity_service.py`), and the weighted persona scoring engine
(`persona/persona_classifier.py`).

Modelling conventions:
* Python floats are modelled as exact rationals (`ℚ`); Python ints as `ℤ`/`ℕ`.
* `datetime` values are modelled by their Unix timestamp (`ℤ`); the scoring
  engine only ever consumes the `year` field of the wallet-creation datetime,
  so that datetime is modelled by its year.
* Records whose numeric fields fail to parse are skipped by the source code
  (`try/except ... continue`); the embedding therefore quantifies over lists
  of already-parsed records.
* Python dictionaries keyed by strings are modelled by association lists in
  insertion order, matching CPython's ordered-dict semantics.
-/

namespace Persona

/-- The embedding of Python's `str.lower()`: lowercase every character.
(Extensionally identical to `String.toLower`; stated over the character
list so that concrete instances reduce definitionally.) -/
def strLower (s : String) : String := String.mk (s.data.map Char.toLower)

/-- A parsed transfer record as consumed by
`PortfolioService._calculate_detailed_holding_metrics`: the `timeStamp`,
`from`, `to` and `value` fields. -/
structure TransferRecord where
  timeStamp : ℤ
  fromAddr : String
  toAddr : String
  value : ℚ
  deriving DecidableEq, Repr

/-- The `token_type` argument of the reducer. -/
inductive TokenType where
  | erc20
  | erc721
  | erc1155
  deriving DecidableEq, Repr

/-- The quantity a transfer moves: for ERC721 each transfer is one token
regardless of payload; otherwise the record's `value` field is used. -/
def transferValue (tt : TokenType) (t : TransferRecord) : ℚ :=
  match tt with
  | .erc721 => 1
  | _ => t.value

/-- Python `min(list)` on a nonempty list of integers (`None` on empty). -/
def pyMinList : List ℤ → Option ℤ
  | [] => none
  | x :: xs => some (xs.foldl min x)

/-- Python `max(list)` on a nonempty list of integers (`None` on empty). -/
def pyMaxList : List ℤ → Option ℤ
  | [] => none
  | x :: xs => some (xs.foldl max x)

/-- Output record of `_calculate_detailed_holding_metrics` (the
`holding_period_days` field, which depends on the wall clock, is derived
from `first_acquisition` and is not part of the embedding). -/
structure HoldingMetrics where
  first_acquisition : Option ℤ
  last_activity : Option ℤ
  total_acquired : ℚ
  total_sold : ℚ
  acquisition_count : ℕ
  sale_count : ℕ
  current_balance : ℚ
  deriving DecidableEq, Repr

/-- Loop state of the reducer: the accumulated metrics plus the list of
acquisition dates collected for the final `min` computation. -/
structure ReduceState where
  acquisitionDates : List ℤ
  total_acquired : ℚ
  total_sold : ℚ
  acquisition_count : ℕ
  sale_count : ℕ
  balance : ℚ
  last_activity : Option ℤ
  deriving DecidableEq, Repr

/-- Initial loop state of the reducer. -/
def initReduceState : ReduceState :=
  { acquisitionDates := []
    total_acquired := 0
    total_sold := 0
    acquisition_count := 0
    sale_count := 0
    balance := 0
    last_activity := none }

/-- One iteration of the transfer loop in
`_calculate_detailed_holding_metrics`: incoming transfers (`to == address`,
case-insensitive) are acquisitions, otherwise outgoing transfers
(`from == address`) are sales; `last_activity` tracks the maximum
timestamp over both directions. -/
def reduceStep (addressLower : String) (tt : TokenType)
    (st : ReduceState) (t : TransferRecord) : ReduceState :=
  let v := transferValue tt t
  let st1 :=
    if strLower t.toAddr = addressLower then
      { st with
        acquisitionDates := st.acquisitionDates ++ [t.timeStamp]
        balance := st.balance + v
        acquisition_count := st.acquisition_count + 1
        total_acquired := st.total_acquired + v }
    else if strLower t.fromAddr = addressLower then
      { st with
        balance := st.balance - v
        sale_count := st.sale_count + 1
        total_sold := st.total_sold + v }
    else st
  { st1 with
    last_activity :=
      some (match st1.last_activity with
            | none => t.timeStamp
            | some l => max l t.timeStamp) }

/-- `PortfolioService._calculate_detailed_holding_metrics`: reduce the
transfer history of one asset for one address into acquisition/disposal
aggregates.  `first_acquisition` is the minimum acquisition date and
`current_balance` is clamped to be nonnegative (`max(0, ...)`). -/
def _calculate_detailed_holding_metrics (address : String)
    (transfers : List TransferRecord) (tt : TokenType) : HoldingMetrics :=
  let st := transfers.foldl (reduceStep (strLower address) tt) initReduceState
  { first_acquisition := pyMinList st.acquisitionDates
    last_activity := st.last_activity
    total_acquired := st.total_acquired
    total_sold := st.total_sold
    acquisition_count := st.acquisition_count
    sale_count := st.sale_count
    current_balance := max 0 st.balance }

/-- `PortfolioService._calculate_token_balance`: fallback balance
reconstruction, summing inbound minus outbound values, clamped at `0`. -/
def _calculate_token_balance (address : String)
    (transfers : List TransferRecord) : ℚ :=
  max 0 (transfers.foldl
    (fun b t =>
      if strLower t.toAddr = strLower address then b + t.value
      else if strLower t.fromAddr = strLower address then b - t.value
      else b)
    0)

/- ------------------------------------------------------------------ -/
/- Portfolio data model (`models/portfolio_models.py`)                  -/
/- ------------------------------------------------------------------ -/

/-- `TokenHolding` from `models/portfolio_models.py` (valuation fields plus
the derived holding/trading fields consumed by the snapshot metrics). -/
structure TokenHolding where
  contract_address : String
  symbol : String
  balance : ℚ
  decimals : ℤ
  price_usd : ℚ
  value_usd : ℚ
  holding_period_days : ℤ := 0
  total_acquired : ℚ := 0
  total_sold : ℚ := 0
  acquisition_transactions : ℕ := 0
  sale_transactions : ℕ := 0
  deriving DecidableEq, Repr

/-- `NFTHolding` from `models/portfolio_models.py`. -/
structure NFTHolding where
  contract_address : String
  token_id : String
  collection_name : String
  estimated_value_usd : ℚ := 0
  floor_price_usd : ℚ := 0
  token_count : ℕ := 1
  holding_period_days : ℤ := 0
  deriving DecidableEq, Repr

/-- `PortfolioSnapshot` from `models/portfolio_models.py` (the
`analysis_timestamp` field plays no role in any derived metric and is
omitted). -/
structure PortfolioSnapshot where
  address : String
  eth_balance : ℚ
  eth_value_usd : ℚ
  token_holdings : List TokenHolding
  nft_holdings : List NFTHolding
  total_value_usd : ℚ
  deriving DecidableEq, Repr

/-- Python `max(assets, key=lambda x: x[1])`: first element wins ties, a
later element replaces the current best only when strictly greater. -/
def pyMaxBySnd (best : String × ℚ) : List (String × ℚ) → String × ℚ
  | [] => best
  | x :: xs => pyMaxBySnd (if best.2 < x.2 then x else best) xs

/-- The candidate asset list built inside
`PortfolioSnapshot.top_asset_by_value`: the native entry first, then
tokens in order, then NFT aggregates. -/
def PortfolioSnapshot.assetsList (s : PortfolioSnapshot) : List (String × ℚ) :=
  ("ETH", s.eth_value_usd)
    :: (s.token_holdings.map fun h => (h.symbol, h.value_usd))
    ++ (s.nft_holdings.map fun h => ("NFT-" ++ h.collection_name, h.estimated_value_usd))

/-- `PortfolioSnapshot.top_asset_by_value`: the highest-value asset, with
the `("None", 0.0)` fallback for an empty candidate list. -/
def PortfolioSnapshot.top_asset_by_value (s : PortfolioSnapshot) : String × ℚ :=
  match s.assetsList with
  | [] => ("None", 0)
  | x :: xs => pyMaxBySnd x xs

/-- `PortfolioSnapshot.token_concentration_ratio`: top asset value divided
by total value, or `0` when `total_value_usd ≤ 0`. -/
def PortfolioSnapshot.token_concentration_ratio (s : PortfolioSnapshot) : ℚ :=
  if s.total_value_usd ≤ 0 then 0
  else s.top_asset_by_value.2 / s.total_value_usd

/-- `PortfolioSnapshot.is_top_asset_token_not_eth`. -/
def PortfolioSnapshot.is_top_asset_token_not_eth (s : PortfolioSnapshot) : Bool :=
  s.top_asset_by_value.1 ≠ "ETH" ∧ ¬ s.top_asset_by_value.1.startsWith "NFT-"

/-- `PortfolioSnapshot.longest_holding_period`: maximum holding period over
token and NFT holdings, `0` when there are none. -/
def PortfolioSnapshot.longest_holding_period (s : PortfolioSnapshot) : ℤ :=
  (pyMaxList (s.token_holdings.map (·.holding_period_days)
      ++ s.nft_holdings.map (·.holding_period_days))).getD 0

/-- `PortfolioSnapshot.total_token_value`. -/
def PortfolioSnapshot.total_token_value (s : PortfolioSnapshot) : ℚ :=
  (s.token_holdings.map (·.value_usd)).sum

/-- `PortfolioSnapshot.total_nft_value`. -/
def PortfolioSnapshot.total_nft_value (s : PortfolioSnapshot) : ℚ :=
  (s.nft_holdings.map (·.estimated_value_usd)).sum

/-- `PortfolioSnapshot.get_significant_token_holdings`: token holdings with
`value_usd >= min_value_usd` (default threshold `5.0`). -/
def PortfolioSnapshot.get_significant_token_holdings (s : PortfolioSnapshot)
    (min_value_usd : ℚ) : List TokenHolding :=
  s.token_holdings.filter fun h => min_value_usd ≤ h.value_usd

/-- `PortfolioSnapshot.get_significant_nft_holdings`: NFT holdings with
`estimated_value_usd >= min_value_usd` (default threshold `5.0`). -/
def PortfolioSnapshot.get_significant_nft_holdings (s : PortfolioSnapshot)
    (min_value_usd : ℚ) : List NFTHolding :=
  s.nft_holdings.filter fun h => min_value_usd ≤ h.estimated_value_usd

/-- `PortfolioSnapshot.dust_positions_count`: positions with
`0 < value < 5.0` (strict on both sides). -/
def PortfolioSnapshot.dust_positions_count (s : PortfolioSnapshot) : ℕ :=
  (if 0 < s.eth_value_usd ∧ s.eth_value_usd < 5 then 1 else 0)
    + (s.token_holdings.filter fun t => 0 < t.value_usd ∧ t.value_usd < 5).length
    + (s.nft_holdings.filter fun n => 0 < n.estimated_value_usd ∧ n.estimated_value_usd < 5).length

/-- `PortfolioSnapshot.dust_value_usd`: total value of positions with
`0 < value < 5.0`. -/
def PortfolioSnapshot.dust_value_usd (s : PortfolioSnapshot) : ℚ :=
  (if 0 < s.eth_value_usd ∧ s.eth_value_usd < 5 then s.eth_value_usd else 0)
    + ((s.token_holdings.filter fun t => 0 < t.value_usd ∧ t.value_usd < 5).map (·.value_usd)).sum
    + ((s.nft_holdings.filter fun n => 0 < n.estimated_value_usd ∧ n.estimated_value_usd < 5).map (·.estimated_value_usd)).sum

/- ------------------------------------------------------------------ -/
/- Position analysis of `_print_portfolio_breakdown`                    -/
/- (`services/portfolio_service.py`)                                    -/
/- ------------------------------------------------------------------ -/

/-- The significant-position count computed by
`PortfolioService._print_portfolio_breakdown`: ETH, tokens and NFTs with
value strictly greater than `5.0`. -/
def breakdown_significant_positions (token_holdings : List TokenHolding)
    (nft_holdings : List NFTHolding) (eth_value_usd : ℚ) : ℕ :=
  (if 5 < eth_value_usd then 1 else 0)
    + (token_holdings.filter fun t => 5 < t.value_usd).length
    + (nft_holdings.filter fun n => 5 < n.estimated_value_usd).length

/-- The dust-position count computed by
`PortfolioService._print_portfolio_breakdown`: ETH, tokens and NFTs with
`0 < value <= 5.0` (inclusive at `5`). -/
def breakdown_dust_positions (token_holdings : List TokenHolding)
    (nft_holdings : List NFTHolding) (eth_value_usd : ℚ) : ℕ :=
  (if 0 < eth_value_usd ∧ eth_value_usd ≤ 5 then 1 else 0)
    + (token_holdings.filter fun t => 0 < t.value_usd ∧ t.value_usd ≤ 5).length
    + (nft_holdings.filter fun n => 0 < n.estimated_value_usd ∧ n.estimated_value_usd ≤ 5).length

/- ------------------------------------------------------------------ -/
/- Spec-side helper predicates for the reducer                          -/
/- ------------------------------------------------------------------ -/

/-- A transfer record is inbound for `address` when its `to` field equals
the address, case-insensitively (the reducer's acquisition test). -/
def isInbound (addressLower : String) (t : TransferRecord) : Bool :=
  strLower t.toAddr = addressLower

/-- A transfer record is outbound for `address` when it is not inbound and
its `from` field equals the address (the reducer's `elif` sale test). -/
def isOutbound (addressLower : String) (t : TransferRecord) : Bool :=
  ¬ (strLower t.toAddr = addressLower) ∧ strLower t.fromAddr = addressLower

/-- Sum of the quantities of the inbound transfers of a list. -/
def sumIn (addressLower : String) (tt : TokenType) (l : List TransferRecord) : ℚ :=
  ((l.filter (isInbound addressLower)).map (transferValue tt)).sum

/-- Sum of the quantities of the outbound transfers of a list. -/
def sumOut (addressLower : String) (tt : TokenType) (l : List TransferRecord) : ℚ :=
  ((l.filter (isOutbound addressLower)).map (transferValue tt)).sum

/-- The timestamps of the inbound transfers of a list, in list order. -/
def datesIn (addressLower : String) (l : List TransferRecord) : List ℤ :=
  (l.filter (isInbound addressLower)).map (·.timeStamp)

/-- The chronologically earliest inbound timestamp of a transfer list
(`none` when the address never received the asset). -/
def earliestInbound (address : String) (l : List TransferRecord) : Option ℤ :=
  pyMinList (datesIn (strLower address) l)

/- ------------------------------------------------------------------ -/
/- Activity service (`services/activity_service.py`)                    -/
/- ------------------------------------------------------------------ -/

/-- A raw ERC20 token-transfer record as consumed by
`ActivityService.analyze_swap_activity`; `none` models a missing or falsy
(`""`/absent) field. -/
structure TokenTransferEvent where
  timeStamp : Option ℤ
  hash : Option String
  contractAddress : Option String
  deriving DecidableEq, Repr

/-- Result record of `analyze_swap_activity`. -/
structure SwapActivityResult where
  swap_count : ℕ
  unique_tokens : ℕ
  dex_interactions : ℕ
  deriving DecidableEq, Repr

/-- Append a transfer to the group of its transaction hash, mirroring
`defaultdict(list)` keyed by `hash` (insertion-ordered keys). -/
def updateGroups (gs : List (String × List TokenTransferEvent))
    (h : String) (t : TokenTransferEvent) : List (String × List TokenTransferEvent) :=
  match gs with
  | [] => [(h, [t])]
  | (k, l) :: rest =>
      if k = h then (k, l ++ [t]) :: rest
      else (k, l) :: updateGroups rest h t

/-- Add an element to a Python `set` modelled as its list of distinct
members in insertion order. -/
def insertNew (s : List String) (c : String) : List String :=
  if c ∈ s then s else s ++ [c]

/-- One iteration of the transfer loop in `analyze_swap_activity`: records
without a timestamp, outside the window, or without a transaction hash are
skipped; otherwise the record joins its hash group and its (lowercased)
contract address joins the unique-token set. -/
def swapStep (since : ℤ)
    (st : List (String × List TokenTransferEvent) × List String)
    (t : TokenTransferEvent) :
    List (String × List TokenTransferEvent) × List String :=
  match t.timeStamp with
  | none => st
  | some ts =>
      if since ≤ ts then
        match t.hash with
        | none => st
        | some h =>
            (updateGroups st.1 h t,
             match t.contractAddress with
             | none => st.2
             | some c => insertNew st.2 (strLower c))
      else st

/-- `ActivityService.analyze_swap_activity` (the pure part, after the
adapter fetch): group in-window records by transaction hash; a hash with
two or more records counts as one swap; `dex_interactions` is the number
of hash groups; `unique_tokens` the number of distinct contract
addresses. -/
def analyze_swap_activity (since : ℤ)
    (transfers : List TokenTransferEvent) : SwapActivityResult :=
  let st := transfers.foldl (swapStep since) ([], [])
  { swap_count := (st.1.filter fun g => 2 ≤ g.2.length).length
    unique_tokens := st.2.length
    dex_interactions := st.1.length }

/-- The multiset of in-window transaction hashes of a transfer list (one
occurrence per record that passes the timestamp, window and hash tests of
`analyze_swap_activity`). -/
def inWindowHashes (since : ℤ) (transfers : List TokenTransferEvent) : List String :=
  transfers.filterMap fun t =>
    match t.timeStamp with
    | none => none
    | some ts => if since ≤ ts then t.hash else none

/-- The distinct in-window transaction hashes in first-occurrence order. -/
def distinctHashes (since : ℤ) (transfers : List TokenTransferEvent) : List String :=
  (inWindowHashes since transfers).foldl insertNew []

/-- The (hash, record) pairs of the records that pass the timestamp,
window and hash tests of `analyze_swap_activity`, in input order. -/
def eligiblePairs (since : ℤ) (transfers : List TokenTransferEvent) :
    List (String × TokenTransferEvent) :=
  transfers.filterMap fun t =>
    match t.timeStamp with
    | none => none
    | some ts =>
        if since ≤ ts then
          match t.hash with
          | none => none
          | some h => some (h, t)
        else none

/-- Total number of records stored under key `x` across a group list
(sums over duplicate keys, so it is well defined without an invariant). -/
def groupSize (gs : List (String × List TokenTransferEvent)) (x : String) : ℕ :=
  ((gs.filter (fun g => g.1 = x)).map (fun g => g.2.length)).sum

/- ------------------------------------------------------------------ -/
/- Persona scoring engine (`persona/persona_classifier.py`)             -/
/- ------------------------------------------------------------------ -/

/-- The criteria dictionary assembled by
`classify_persona_with_details` — restricted to the fields the scoring
engine reads.  `wallet_creation_year` models the `.year` of the
`wallet_creation_date` datetime (`none` when the date is unknown). -/
structure Criteria where
  token_concentration : ℚ
  longest_holding_days : ℤ
  top_value : ℚ
  wallet_creation_year : Option ℤ
  has_eth : Bool
  active_days : ℕ
  swap_count : ℕ
  is_top_asset_token_not_eth : Bool
  total_portfolio_value : ℚ
  total_transactions : ℕ
  deriving DecidableEq, Repr

/-- Metric weight labels. -/
inductive Weight where
  | High
  | Medium
  | Low
  deriving DecidableEq, Repr

/-- `weight_values = {"High": 3, "Medium": 2, "Low": 1}`. -/
def weightValue : Weight → ℕ
  | .High => 3
  | .Medium => 2
  | .Low => 1

/-- One entry of the detailed-metrics list — restricted to the fields the
scoring loop of `_determine_persona` reads. -/
structure Metric where
  persona_type : String
  passes : Bool
  weight : Weight
  deriving DecidableEq, Repr

/-- `_calculate_og_metrics`: the five OG (Conservative) criteria. -/
def _calculate_og_metrics (c : Criteria) : List Metric :=
  [ { persona_type := "OG (Conservative)"
      passes := decide (c.token_concentration > 0.6)
      weight := .High }
  , { persona_type := "OG (Conservative)"
      passes := decide (c.longest_holding_days > 365)
      weight := .High }
  , { persona_type := "OG (Conservative)"
      passes := decide (c.top_value < 5000)
      weight := .Medium }
  , { persona_type := "OG (Conservative)"
      passes := match c.wallet_creation_year with
                | none => false
                | some y => decide (y < 2020)
      weight := .High }
  , { persona_type := "OG (Conservative)"
      passes := c.has_eth
      weight := .Medium } ]

/-- `_calculate_defi_chad_metrics`: the four DeFi Chad (Moderate)
criteria. -/
def _calculate_defi_chad_metrics (c : Criteria) : List Metric :=
  [ { persona_type := "DeFi Chad (Moderate)"
      passes := decide (c.longest_holding_days > 90)
      weight := .High }
  , { persona_type := "DeFi Chad (Moderate)"
      passes := decide (c.token_concentration > 0.5)
      weight := .High }
  , { persona_type := "DeFi Chad (Moderate)"
      passes := decide (c.active_days > 120)
      weight := .High }
  , { persona_type := "DeFi Chad (Moderate)"
      passes := decide (2000 < c.top_value ∧ c.top_value < 5000)
      weight := .Medium } ]

/-- `_calculate_degen_metrics`: the five Degen (Aggressive) criteria. -/
def _calculate_degen_metrics (c : Criteria) : List Metric :=
  [ { persona_type := "Degen (Aggressive)"
      passes := decide (c.active_days > 180)
      weight := .High }
  , { persona_type := "Degen (Aggressive)"
      passes := decide (c.swap_count > 100)
      weight := .High }
  , { persona_type := "Degen (Aggressive)"
      passes := decide (c.longest_holding_days < 90)
      weight := .High }
  , { persona_type := "Degen (Aggressive)"
      passes := decide (c.token_concentration > 0.7)
      weight := .Medium }
  , { persona_type := "Degen (Aggressive)"
      passes := c.is_top_asset_token_not_eth
      weight := .Medium } ]

/-- `_calculate_virgin_ct_metrics`: the four Virgin CT (Newbie)
criteria. -/
def _calculate_virgin_ct_metrics (c : Criteria) : List Metric :=
  [ { persona_type := "Virgin CT (Newbie)"
      passes := match c.wallet_creation_year with
                | none => false
                | some y => decide (y > 2023)
      weight := .High }
  , { persona_type := "Virgin CT (Newbie)"
      passes := decide (c.active_days > 30)
      weight := .Medium }
  , { persona_type := "Virgin CT (Newbie)"
      passes := decide (c.total_portfolio_value < 5000)
      weight := .High }
  , { persona_type := "Virgin CT (Newbie)"
      passes := decide (c.total_transactions < 50)
      weight := .Medium } ]

/-- `_calculate_detailed_metrics`: the concatenated metric battery for all
four archetypes, in source order. -/
def _calculate_detailed_metrics (c : Criteria) : List Metric :=
  _calculate_og_metrics c ++ _calculate_defi_chad_metrics c
    ++ _calculate_degen_metrics c ++ _calculate_virgin_ct_metrics c

/-- One archetype's entry of the `persona_scores` dictionary built by
`_determine_persona`. -/
structure ScoreEntry where
  name : String
  totalScore : ℕ
  maxPossible : ℕ
  passedMetrics : ℕ
  totalMetrics : ℕ
  deriving DecidableEq, Repr

/-- Accumulate one metric into an archetype's score record (the body of
the scoring loop in `_determine_persona`). -/
def scoreAccum (st : ScoreEntry) (m : Metric) : ScoreEntry :=
  let w := weightValue m.weight
  { st with
    maxPossible := st.maxPossible + w
    totalMetrics := st.totalMetrics + 1
    totalScore := if m.passes then st.totalScore + w else st.totalScore
    passedMetrics := if m.passes then st.passedMetrics + 1 else st.passedMetrics }

/-- The score record an archetype accumulates over its metric list. -/
def scoreEntry (name : String) (ms : List Metric) : ScoreEntry :=
  ms.foldl scoreAccum
    { name := name, totalScore := 0, maxPossible := 0
      passedMetrics := 0, totalMetrics := 0 }

/-- The percentage score `total_score / max_possible` of an archetype. -/
def pct (e : ScoreEntry) : ℚ :=
  (e.totalScore : ℚ) / (e.maxPossible : ℚ)

/-- The `persona_scores` table of `_determine_persona`: grouping the
detailed-metrics list by `persona_type` yields exactly one entry per
archetype, in first-insertion (= battery) order. -/
def scoreTable (c : Criteria) : List ScoreEntry :=
  [ scoreEntry "OG (Conservative)" (_calculate_og_metrics c)
  , scoreEntry "DeFi Chad (Moderate)" (_calculate_defi_chad_metrics c)
  , scoreEntry "Degen (Aggressive)" (_calculate_degen_metrics c)
  , scoreEntry "Virgin CT (Newbie)" (_calculate_virgin_ct_metrics c) ]

/-- One iteration of the ranking loop of `_determine_persona`: an entry
with `max_possible > 0` replaces the current best when its percentage is
strictly higher, or equal with a strictly higher absolute
`total_score`. -/
def selectStep (st : Option ScoreEntry × ℚ) (e : ScoreEntry) :
    Option ScoreEntry × ℚ :=
  if 0 < e.maxPossible then
    match st with
    | (none, bs) => if bs < pct e then (some e, pct e) else (none, bs)
    | (some b, bs) =>
        if bs < pct e ∨ (bs = pct e ∧ b.totalScore < e.totalScore) then
          (some e, pct e)
        else (some b, bs)
  else st

/-- The ranking loop of `_determine_persona`, starting from
`best_persona = None, best_score = -1`. -/
def selectBest (entries : List ScoreEntry) : Option ScoreEntry × ℚ :=
  entries.foldl selectStep (none, -1)

/-- `PersonaClassifier._determine_persona`: rank the four archetype scores
and return the best archetype's name, or `"Unclassified"` when none was
selected. -/
def _determine_persona (c : Criteria) : String :=
  match (selectBest (scoreTable c)).1 with
  | some b => b.name
  | none => "Unclassified"

/- ------------------------------------------------------------------ -/
/- `classify_persona_with_details` (`persona/persona_classifier.py`)    -/
/- ------------------------------------------------------------------ -/

/-- Result of `calculate_activity_score`. -/
structure ActivityResult where
  active_days : ℕ
  total_transactions : ℕ
  deriving DecidableEq, Repr

/-- The criteria record assembled by `classify_persona_with_details` from
the portfolio snapshot, the activity metrics, the swap metrics, and the
wallet-creation year. -/
def mkCriteria (p : PortfolioSnapshot) (a : ActivityResult)
    (sw : SwapActivityResult) (creationYear : Option ℤ) : Criteria :=
  { token_concentration := p.token_concentration_ratio
    longest_holding_days := p.longest_holding_period
    top_value := p.top_asset_by_value.2
    wallet_creation_year := creationYear
    has_eth := decide (0 < p.eth_balance)
    active_days := a.active_days
    swap_count := sw.swap_count
    is_top_asset_token_not_eth := p.is_top_asset_token_not_eth
    total_portfolio_value := p.total_value_usd
    total_transactions := a.total_transactions }

/-- Result tuple of `classify_persona_with_details`; `criteria = none`
models the empty dictionary of the error path. -/
structure ClassifyOutcome where
  persona : String
  criteria : Option Criteria
  detailed_metrics : List Metric
  deriving DecidableEq, Repr

/-- `PersonaClassifier.classify_persona_with_details`: each upstream
gathering step is modelled as an `Except` value (`.error` when the
underlying call raised).  The whole body runs inside
`try ... except: return ("Error", {}, [])`, so any failure yields the
sentinel outcome. -/
def classify_persona_with_details
    (portfolioRes : Except String PortfolioSnapshot)
    (activityRes : Except String ActivityResult)
    (swapRes : Except String SwapActivityResult)
    (creationRes : Except String (Option ℤ)) : ClassifyOutcome :=
  match portfolioRes, activityRes, swapRes, creationRes with
  | .ok p, .ok a, .ok sw, .ok cy =>
      let crit := mkCriteria p a sw cy
      { persona := _determine_persona crit
        criteria := some crit
        detailed_metrics := _calculate_detailed_metrics crit }
  | _, _, _, _ => { persona := "Error", criteria := none, detailed_metrics := [] }

/- ------------------------------------------------------------------ -/
/- Concrete fixtures used in witness instantiations                     -/
/- ------------------------------------------------------------------ -/

/-- A concrete token holding worth exactly `$5.00`. -/
def tok5 : TokenHolding :=
  { contract_address := "0xc", symbol := "TOK", balance := 1,
    decimals := 18, price_usd := 5, value_usd := 5 }

/-- A snapshot whose only position is `tok5`. -/
def snap5 : PortfolioSnapshot :=
  { address := "0x0", eth_balance := 0, eth_value_usd := 0,
    token_holdings := [tok5], nft_holdings := [], total_value_usd := 5 }

/-- A concrete token holding worth `$3.00`. -/
def tok3 : TokenHolding :=
  { contract_address := "0xc", symbol := "TOK", balance := 1,
    decimals := 18, price_usd := 3, value_usd := 3 }

/-- A consistent snapshot: `$1` of ETH plus `tok3`, total `$4`. -/
def snap4 : PortfolioSnapshot :=
  { address := "0x0", eth_balance := 1, eth_value_usd := 1,
    token_holdings := [tok3], nft_holdings := [], total_value_usd := 4 }

/-- The empty snapshot: no holdings and zero ETH value. -/
def snapEmpty : PortfolioSnapshot :=
  { address := "0x0", eth_balance := 0, eth_value_usd := 0,
    token_holdings := [], nft_holdings := [], total_value_usd := 0 }

/-- The concrete criteria of the Conservative scenario: concentration
`0.65`, longest holding `400` days, top value `$3000`, wallet created in
`2019`, holding ETH, and otherwise inactive. -/
def sampleCriteria : Criteria :=
  { token_concentration := 0.65, longest_holding_days := 400,
    top_value := 3000, wallet_creation_year := some 2019,
    has_eth := true, active_days := 0, swap_count := 0,
    is_top_asset_token_not_eth := false, total_portfolio_value := 3000,
    total_transactions := 0 }

/- ================================================================== -/
/- Theorems                                                             -/
/- ================================================================== -/

theorem transferValue_nonneg (tt : TokenType) (t : TransferRecord)
    (h : 0 ≤ t.value) : 0 ≤ transferValue tt t := by
  cases tt <;> simp [transferValue] <;> try exact h

theorem foldl_reduceStep_spec (addressLower : String) (tt : TokenType) :
    ∀ (l : List TransferRecord) (st : ReduceState),
      (l.foldl (reduceStep addressLower tt) st).total_acquired
          = st.total_acquired + sumIn addressLower tt l
      ∧ (l.foldl (reduceStep addressLower tt) st).total_sold
          = st.total_sold + sumOut addressLower tt l
      ∧ (l.foldl (reduceStep addressLower tt) st).acquisition_count
          = st.acquisition_count + l.countP (isInbound addressLower)
      ∧ (l.foldl (reduceStep addressLower tt) st).sale_count
          = st.sale_count + l.countP (isOutbound addressLower)
      ∧ (l.foldl (reduceStep addressLower tt) st).balance
          = st.balance + (sumIn addressLower tt l - sumOut addressLower tt l)
      ∧ (l.foldl (reduceStep addressLower tt) st).acquisitionDates
          = st.acquisitionDates ++ datesIn addressLower l
  | [], st => by
      simp [sumIn, sumOut, datesIn]
  | t :: l, st => by
      obtain ⟨h1, h2, h3, h4, h5, h6⟩ :=
        foldl_reduceStep_spec addressLower tt l (reduceStep addressLower tt st t)
      rw [List.foldl_cons, h1, h2, h3, h4, h5, h6]
      by_cases hin : strLower t.toAddr = addressLower
      · refine ⟨?_, ?_, ?_, ?_, ?_, ?_⟩ <;>
          simp [reduceStep, hin, sumIn, sumOut, datesIn,
            isInbound, isOutbound, List.filter_cons, List.countP_cons] <;>
          try first | ring | omega
      · by_cases hout : strLower t.fromAddr = addressLower
        · refine ⟨?_, ?_, ?_, ?_, ?_, ?_⟩ <;>
            simp [reduceStep, hin, hout, sumIn, sumOut,
              datesIn, isInbound, isOutbound, List.filter_cons, List.countP_cons] <;>
            try first | ring | omega
        · refine ⟨?_, ?_, ?_, ?_, ?_, ?_⟩ <;>
            simp [reduceStep, hin, hout, sumIn, sumOut,
              datesIn, isInbound, isOutbound, List.filter_cons, List.countP_cons] <;>
            try first | ring | omega

/-- Closed form of the reducer: each aggregate is a sum/count/min over the
inbound (resp. outbound) records of the input list. -/
theorem metrics_spec (address : String) (tt : TokenType)
    (l : List TransferRecord) :
    _calculate_detailed_holding_metrics address l tt =
      { first_acquisition := earliestInbound address l
        last_activity :=
          (l.foldl (reduceStep (strLower address) tt) initReduceState).last_activity
        total_acquired := sumIn (strLower address) tt l
        total_sold := sumOut (strLower address) tt l
        acquisition_count := l.countP (isInbound (strLower address))
        sale_count := l.countP (isOutbound (strLower address))
        current_balance :=
          max 0 (sumIn (strLower address) tt l - sumOut (strLower address) tt l) } := by
  obtain ⟨h1, h2, h3, h4, h5, h6⟩ :=
    foldl_reduceStep_spec (strLower address) tt l initReduceState
  have h1' : (l.foldl (reduceStep (strLower address) tt) initReduceState).total_acquired
      = sumIn (strLower address) tt l := by rw [h1]; simp [initReduceState]
  have h2' : (l.foldl (reduceStep (strLower address) tt) initReduceState).total_sold
      = sumOut (strLower address) tt l := by rw [h2]; simp [initReduceState]
  have h3' : (l.foldl (reduceStep (strLower address) tt) initReduceState).acquisition_count
      = l.countP (isInbound (strLower address)) := by rw [h3]; simp [initReduceState]
  have h4' : (l.foldl (reduceStep (strLower address) tt) initReduceState).sale_count
      = l.countP (isOutbound (strLower address)) := by rw [h4]; simp [initReduceState]
  have h5' : (l.foldl (reduceStep (strLower address) tt) initReduceState).balance
      = sumIn (strLower address) tt l - sumOut (strLower address) tt l := by
    rw [h5]; simp [initReduceState]
  have h6' : (l.foldl (reduceStep (strLower address) tt) initReduceState).acquisitionDates
      = datesIn (strLower address) l := by rw [h6]; simp [initReduceState]
  simp [_calculate_detailed_holding_metrics, HoldingMetrics.mk.injEq,
    h1', h2', h3', h4', h5', h6', earliestInbound]

theorem foldl_min_mem : ∀ (xs : List ℤ) (x : ℤ), xs.foldl min x ∈ x :: xs
  | [], x => by simp
  | y :: ys, x => by
      have h := foldl_min_mem ys (min x y)
      rw [List.foldl_cons]
      rcases List.mem_cons.mp h with h' | h'
      · rcases min_choice x y with hm | hm <;> rw [h', hm] <;> simp
      · simp [h']

theorem foldl_min_le : ∀ (xs : List ℤ) (x y : ℤ), y ∈ x :: xs → xs.foldl min x ≤ y
  | [], x, y, h => by
      have hy : y = x := by simpa using h
      simp [hy]
  | z :: zs, x, y, h => by
      rw [List.foldl_cons]
      have hself : zs.foldl min (min x z) ≤ min x z :=
        foldl_min_le zs (min x z) (min x z) (List.mem_cons_self _ _)
      rcases List.mem_cons.mp h with h' | h'
      · subst h'; exact hself.trans (min_le_left _ _)
      · rcases List.mem_cons.mp h' with h'' | h''
        · subst h''; exact hself.trans (min_le_right _ _)
        · exact foldl_min_le zs (min x z) y (List.mem_cons.mpr (Or.inr h''))

theorem pyMinList_perm (l l' : List ℤ) (hp : l.Perm l') :
    pyMinList l = pyMinList l' := by
  cases l with
  | nil =>
      have : l' = [] := (hp.symm).eq_nil
      simp [this]
  | cons x xs =>
      cases l' with
      | nil => exact absurd hp.eq_nil (by simp)
      | cons y ys =>
          simp only [pyMinList, Option.some.injEq]
          apply le_antisymm
          · exact foldl_min_le xs x _ (hp.mem_iff.mpr (foldl_min_mem ys y))
          · exact foldl_min_le ys y _ (hp.symm.mem_iff.mpr (foldl_min_mem xs x))

/-- C2: the claimed invariant `total_acquired ≥ total_sold` fails on the
code: one outbound ERC20 transfer of 5 tokens from the address (with no
recorded acquisition) yields `total_acquired = 0 < 5 = total_sold`. -/
theorem claim_C2_counterexample :
    ¬ ((_calculate_detailed_holding_metrics "0xa"
          [{ timeStamp := 100, fromAddr := "0xa", toAddr := "0xb", value := 5 }]
          .erc20).total_sold
        ≤ (_calculate_detailed_holding_metrics "0xa"
          [{ timeStamp := 100, fromAddr := "0xa", toAddr := "0xb", value := 5 }]
          .erc20).total_acquired) := by
  rw [metrics_spec]
  have hne : (strLower "0xb" = strLower "0xa") = False := by
    simp only [eq_iff_iff, iff_false]
    decide
  have heq : (strLower "0xa" = strLower "0xa") = True := by simp
  simp [sumIn, sumOut, isInbound, isOutbound, transferValue, hne, heq,
    List.filter_cons]

/-- C2 (amended): for every list of transfer records with nonnegative
quantities, the transfer-ledger reduction satisfies `total_acquired ≥ 0`
and `total_sold ≥ 0`; the relation `total_acquired ≥ total_sold` is not
guaranteed (it fails whenever disposals exceed recorded acquisitions). -/
theorem claim_C2_amended (address : String) (tt : TokenType)
    (transfers : List TransferRecord)
    (hv : ∀ t ∈ transfers, 0 ≤ t.value) :
    0 ≤ (_calculate_detailed_holding_metrics address transfers tt).total_acquired
    ∧ 0 ≤ (_calculate_detailed_holding_metrics address transfers tt).total_sold := by
  rw [metrics_spec]
  constructor <;>
  · apply List.sum_nonneg
    intro q hq
    simp only [List.mem_map] at hq
    obtain ⟨t, ht, rfl⟩ := hq
    exact transferValue_nonneg _ _ (hv t (List.mem_of_mem_filter ht))

/-- Witness for C2 (amended) at a concrete inbound transfer. -/
theorem claim_C2_witness :
    (∀ t ∈ [({ timeStamp := 50, fromAddr := "0xb", toAddr := "0xa",
                value := 3 } : TransferRecord)], 0 ≤ t.value)
    ∧ (0 ≤ (_calculate_detailed_holding_metrics "0xa"
          [{ timeStamp := 50, fromAddr := "0xb", toAddr := "0xa", value := 3 }]
          .erc20).total_acquired
      ∧ 0 ≤ (_calculate_detailed_holding_metrics "0xa"
          [{ timeStamp := 50, fromAddr := "0xb", toAddr := "0xa", value := 3 }]
          .erc20).total_sold) :=
  ⟨by decide, claim_C2_amended "0xa" .erc20 _ (by decide)⟩

/-- C3: the transfer-ledger reduction is order-independent — reducing any
permutation of the input yields identical `total_acquired`, `total_sold`,
`acquisition_count`, `sale_count` and `current_balance`, and
`first_acquisition` equals the chronologically earliest inbound
(`to == address`, case-insensitive) timestamp of the original list. -/
theorem claim_C3 (address : String) (tt : TokenType)
    (l l' : List TransferRecord) (hp : l.Perm l') :
    (_calculate_detailed_holding_metrics address l' tt).total_acquired
        = (_calculate_detailed_holding_metrics address l tt).total_acquired
    ∧ (_calculate_detailed_holding_metrics address l' tt).total_sold
        = (_calculate_detailed_holding_metrics address l tt).total_sold
    ∧ (_calculate_detailed_holding_metrics address l' tt).acquisition_count
        = (_calculate_detailed_holding_metrics address l tt).acquisition_count
    ∧ (_calculate_detailed_holding_metrics address l' tt).sale_count
        = (_calculate_detailed_holding_metrics address l tt).sale_count
    ∧ (_calculate_detailed_holding_metrics address l' tt).current_balance
        = (_calculate_detailed_holding_metrics address l tt).current_balance
    ∧ (_calculate_detailed_holding_metrics address l' tt).first_acquisition
        = earliestInbound address l
    ∧ (_calculate_detailed_holding_metrics address l tt).first_acquisition
        = earliestInbound address l := by
  rw [metrics_spec, metrics_spec]
  have hin := hp.filter (isInbound (strLower address))
  have hout := hp.filter (isOutbound (strLower address))
  have hsumIn : sumIn (strLower address) tt l' = sumIn (strLower address) tt l :=
    ((hin.map (transferValue tt)).sum_eq).symm
  have hsumOut : sumOut (strLower address) tt l' = sumOut (strLower address) tt l :=
    ((hout.map (transferValue tt)).sum_eq).symm
  have hdates : (datesIn (strLower address) l).Perm (datesIn (strLower address) l') := by
    unfold datesIn
    exact hin.map _
  have hmin : pyMinList (datesIn (strLower address) l')
      = pyMinList (datesIn (strLower address) l) :=
    (pyMinList_perm _ _ hdates).symm
  refine ⟨?_, ?_, ?_, ?_, ?_, ?_, ?_⟩ <;>
    simp [hsumIn, hsumOut, hmin, hp.countP_eq, earliestInbound]

/-- Witness for C3: two transfers given in both orders. -/
theorem claim_C3_witness :
    (([{ timeStamp := 9, fromAddr := "0xb", toAddr := "0xa", value := 2 }
      , { timeStamp := 4, fromAddr := "0xa", toAddr := "0xc", value := 1 }]
        : List TransferRecord).Perm
      [{ timeStamp := 4, fromAddr := "0xa", toAddr := "0xc", value := 1 }
      , { timeStamp := 9, fromAddr := "0xb", toAddr := "0xa", value := 2 }])
    ∧ (_calculate_detailed_holding_metrics "0xa"
        [{ timeStamp := 4, fromAddr := "0xa", toAddr := "0xc", value := 1 }
        , { timeStamp := 9, fromAddr := "0xb", toAddr := "0xa", value := 2 }]
        .erc20).first_acquisition
      = earliestInbound "0xa"
        [{ timeStamp := 9, fromAddr := "0xb", toAddr := "0xa", value := 2 }
        , { timeStamp := 4, fromAddr := "0xa", toAddr := "0xc", value := 1 }] :=
  ⟨List.Perm.swap _ _ _,
   (claim_C3 "0xa" .erc20 _ _ (List.Perm.swap _ _ _)).2.2.2.2.2.1⟩

/-- C4: the current balance reported by the transfer-ledger reduction and
by the fallback balance reconstruction is never negative, for every input
list (both are clamped with `max(0, ...)`). -/
theorem claim_C4 :
    (∀ (address : String) (tt : TokenType) (transfers : List TransferRecord),
        0 ≤ (_calculate_detailed_holding_metrics address transfers tt).current_balance)
    ∧ (∀ (address : String) (transfers : List TransferRecord),
        0 ≤ _calculate_token_balance address transfers) := by
  constructor
  · intro a tt l
    rw [metrics_spec]
    exact le_max_left _ _
  · intro a l
    unfold _calculate_token_balance
    exact le_max_left _ _

theorem pyMaxBySnd_mem : ∀ (l : List (String × ℚ)) (best : String × ℚ),
    pyMaxBySnd best l ∈ best :: l
  | [], best => by simp [pyMaxBySnd]
  | x :: xs, best => by
      rw [show pyMaxBySnd best (x :: xs)
            = pyMaxBySnd (if best.2 < x.2 then x else best) xs from rfl]
      by_cases hc : best.2 < x.2
      · rw [if_pos hc]
        rcases List.mem_cons.mp (pyMaxBySnd_mem xs x) with h' | h' <;> simp [h']
      · rw [if_neg hc]
        rcases List.mem_cons.mp (pyMaxBySnd_mem xs best) with h' | h' <;> simp [h']

theorem le_pyMaxBySnd : ∀ (l : List (String × ℚ)) (best p : String × ℚ),
    p ∈ best :: l → p.2 ≤ (pyMaxBySnd best l).2
  | [], best, p, h => by
      have hp : p = best := by simpa using h
      simp [pyMaxBySnd, hp]
  | x :: xs, best, p, h => by
      have hb : (if best.2 < x.2 then x else best).2
          ≤ (pyMaxBySnd (if best.2 < x.2 then x else best) xs).2 :=
        le_pyMaxBySnd xs _ _ (List.mem_cons_self _ _)
      rw [show pyMaxBySnd best (x :: xs)
            = pyMaxBySnd (if best.2 < x.2 then x else best) xs from rfl]
      rcases List.mem_cons.mp h with h' | h'
      · subst h'
        refine le_trans ?_ hb
        by_cases hc : p.2 < x.2 <;> simp [hc]
        exact le_of_lt hc
      · rcases List.mem_cons.mp h' with h'' | h''
        · subst h''
          refine le_trans ?_ hb
          by_cases hc : best.2 < p.2 <;> simp [hc]
          exact le_of_not_lt hc
        · exact le_pyMaxBySnd xs _ p (List.mem_cons.mpr (Or.inr h''))

theorem assetsList_ne_nil (s : PortfolioSnapshot) : s.assetsList ≠ [] := by
  simp [PortfolioSnapshot.assetsList]

theorem top_asset_mem_assetsList (s : PortfolioSnapshot) :
    s.top_asset_by_value ∈ s.assetsList := by
  rcases hassets : s.assetsList with _ | ⟨x, xs⟩
  · exact absurd hassets (assetsList_ne_nil s)
  · have htop : s.top_asset_by_value = pyMaxBySnd x xs := by
      unfold PortfolioSnapshot.top_asset_by_value
      rw [hassets]
    rw [htop]
    exact pyMaxBySnd_mem xs x

/-- C10: the candidate list built by `top_asset_by_value` always contains
the native `("ETH", eth_value_usd)` entry and is never empty, so the
`("None", 0.0)` fallback branch is unreachable; in particular a snapshot
with no token holdings, no NFT holdings and zero `eth_value_usd` returns
`("ETH", 0.0)` as its top asset. -/
theorem claim_C10 (s : PortfolioSnapshot) :
    ("ETH", s.eth_value_usd) ∈ s.assetsList
    ∧ s.assetsList ≠ []
    ∧ (s.token_holdings = [] → s.nft_holdings = [] → s.eth_value_usd = 0 →
        s.top_asset_by_value = ("ETH", 0)) := by
  refine ⟨?_, assetsList_ne_nil s, ?_⟩
  · simp [PortfolioSnapshot.assetsList]
  · intro h1 h2 h3
    simp [PortfolioSnapshot.top_asset_by_value, PortfolioSnapshot.assetsList,
      h1, h2, h3, pyMaxBySnd]

/-- Witness for C10 on the empty snapshot. -/
theorem claim_C10_witness : snapEmpty.top_asset_by_value = ("ETH", 0) :=
  (claim_C10 snapEmpty).2.2 rfl rfl rfl

theorem mem_assetsList_nonneg (s : PortfolioSnapshot)
    (heth : 0 ≤ s.eth_value_usd)
    (htok : ∀ t ∈ s.token_holdings, 0 ≤ t.value_usd)
    (hnft : ∀ n ∈ s.nft_holdings, 0 ≤ n.estimated_value_usd) :
    ∀ p ∈ s.assetsList, 0 ≤ p.2 := by
  intro p hp
  unfold PortfolioSnapshot.assetsList at hp
  rcases List.mem_cons.mp hp with rfl | hp'
  · exact heth
  · rcases List.mem_append.mp hp' with hp2 | hp2
    · obtain ⟨t, ht, rfl⟩ := List.mem_map.mp hp2
      exact htok t ht
    · obtain ⟨n, hn, rfl⟩ := List.mem_map.mp hp2
      exact hnft n hn

theorem mem_assetsList_le_total (s : PortfolioSnapshot)
    (hsum : s.total_value_usd
      = s.eth_value_usd + s.total_token_value + s.total_nft_value)
    (heth : 0 ≤ s.eth_value_usd)
    (htok : ∀ t ∈ s.token_holdings, 0 ≤ t.value_usd)
    (hnft : ∀ n ∈ s.nft_holdings, 0 ≤ n.estimated_value_usd) :
    ∀ p ∈ s.assetsList, p.2 ≤ s.total_value_usd := by
  have htokSum : 0 ≤ s.total_token_value :=
    List.sum_nonneg (by
      intro q hq
      simp only [PortfolioSnapshot.total_token_value, List.mem_map] at hq
      obtain ⟨t, ht, rfl⟩ := hq
      exact htok t ht)
  have hnftSum : 0 ≤ s.total_nft_value :=
    List.sum_nonneg (by
      intro q hq
      simp only [PortfolioSnapshot.total_nft_value, List.mem_map] at hq
      obtain ⟨n, hn, rfl⟩ := hq
      exact hnft n hn)
  intro p hp
  unfold PortfolioSnapshot.assetsList at hp
  rcases List.mem_cons.mp hp with rfl | hp'
  · rw [hsum]; simp only; linarith
  · rcases List.mem_append.mp hp' with hp2 | hp2
    · obtain ⟨t, ht, rfl⟩ := List.mem_map.mp hp2
      have hle : t.value_usd ≤ s.total_token_value :=
        List.single_le_sum (fun q hq => by
            simp only [PortfolioSnapshot.total_token_value, List.mem_map] at hq
            obtain ⟨u, hu, rfl⟩ := hq
            exact htok u hu)
          _ (List.mem_map_of_mem _ ht)
      rw [hsum]; simp only; linarith
    · obtain ⟨n, hn, rfl⟩ := List.mem_map.mp hp2
      have hle : n.estimated_value_usd ≤ s.total_nft_value :=
        List.single_le_sum (fun q hq => by
            simp only [PortfolioSnapshot.total_nft_value, List.mem_map] at hq
            obtain ⟨u, hu, rfl⟩ := hq
            exact hnft u hu)
          _ (List.mem_map_of_mem _ hn)
      rw [hsum]; simp only; linarith

/-- C7: for every snapshot whose stored `total_value_usd` is the sum of
its nonnegative component values, `token_concentration_ratio` lies in
`[0, 1]` whenever `total_value_usd > 0`, and equals `0` whenever
`total_value_usd ≤ 0`. -/
theorem claim_C7 (s : PortfolioSnapshot)
    (hsum : s.total_value_usd
      = s.eth_value_usd + s.total_token_value + s.total_nft_value)
    (heth : 0 ≤ s.eth_value_usd)
    (htok : ∀ t ∈ s.token_holdings, 0 ≤ t.value_usd)
    (hnft : ∀ n ∈ s.nft_holdings, 0 ≤ n.estimated_value_usd) :
    (0 < s.total_value_usd →
      0 ≤ s.token_concentration_ratio ∧ s.token_concentration_ratio ≤ 1)
    ∧ (s.total_value_usd ≤ 0 → s.token_concentration_ratio = 0) := by
  constructor
  · intro hpos
    have htop_nonneg : 0 ≤ s.top_asset_by_value.2 :=
      mem_assetsList_nonneg s heth htok hnft _ (top_asset_mem_assetsList s)
    have htop_le : s.top_asset_by_value.2 ≤ s.total_value_usd :=
      mem_assetsList_le_total s hsum heth htok hnft _ (top_asset_mem_assetsList s)
    unfold PortfolioSnapshot.token_concentration_ratio
    rw [if_neg (not_le.mpr hpos)]
    exact ⟨div_nonneg htop_nonneg (le_of_lt hpos), (div_le_one hpos).mpr htop_le⟩
  · intro hle
    unfold PortfolioSnapshot.token_concentration_ratio
    rw [if_pos hle]

/-- Witness for C7 at the concrete consistent snapshot `snap4`. -/
theorem claim_C7_witness :
    (snap4.total_value_usd
      = snap4.eth_value_usd + snap4.total_token_value + snap4.total_nft_value)
    ∧ ((0 < snap4.total_value_usd →
        0 ≤ snap4.token_concentration_ratio ∧ snap4.token_concentration_ratio ≤ 1)
      ∧ (snap4.total_value_usd ≤ 0 → snap4.token_concentration_ratio = 0)) := by
  have hsum : snap4.total_value_usd
      = snap4.eth_value_usd + snap4.total_token_value + snap4.total_nft_value := by
    norm_num [snap4, tok3, PortfolioSnapshot.total_token_value,
      PortfolioSnapshot.total_nft_value]
  refine ⟨hsum, claim_C7 snap4 hsum ?_ ?_ ?_⟩
  · norm_num [snap4]
  · intro t ht
    simp only [snap4, List.mem_singleton] at ht
    subst ht
    norm_num [tok3]
  · intro n hn
    simp [snap4] at hn

/-- C5: the claim that a position worth exactly `$5.00` is never dust and
always significant fails on the code: the position analysis of
`_print_portfolio_breakdown` counts a `$5.00` token as dust
(`0 < value <= 5.0`) and not as significant (`> 5.0`). -/
theorem claim_C5_counterexample :
    breakdown_dust_positions [tok5] [] 0 = 1
    ∧ breakdown_significant_positions [tok5] [] 0 = 0 := by
  constructor <;>
    norm_num [breakdown_dust_positions, breakdown_significant_positions,
      tok5, List.filter_cons]

/-- C5 (amended): a position valued exactly `$5.00` is not dust and is
significant in the `PortfolioSnapshot` metrics (`dust_positions_count`
and `dust_value_usd` use `0 < value < 5.0`;
`get_significant_token_holdings` uses `value >= 5.0`, not `> 5.0`), but
the position analysis of `_print_portfolio_breakdown` uses the opposite
boundary (`0 < value <= 5.0` for dust, `> 5.0` for significant) and
there counts the same position as dust and not significant. -/
theorem claim_C5_amended (tok : TokenHolding) (s : PortfolioSnapshot)
    (hv : tok.value_usd = 5)
    (hs : s.token_holdings = [tok]) (hn : s.nft_holdings = [])
    (he : s.eth_value_usd = 0) :
    s.dust_positions_count = 0
    ∧ s.dust_value_usd = 0
    ∧ s.get_significant_token_holdings 5 = [tok]
    ∧ breakdown_dust_positions [tok] [] 0 = 1
    ∧ breakdown_significant_positions [tok] [] 0 = 0 := by
  refine ⟨?_, ?_, ?_, ?_, ?_⟩ <;>
    norm_num [PortfolioSnapshot.dust_positions_count,
      PortfolioSnapshot.dust_value_usd,
      PortfolioSnapshot.get_significant_token_holdings,
      breakdown_dust_positions, breakdown_significant_positions,
      hs, hn, he, hv, List.filter_cons]

/-- Witness for C5 (amended) at the concrete `$5.00` token `tok5`. -/
theorem claim_C5_witness :
    snap5.dust_positions_count = 0
    ∧ snap5.dust_value_usd = 0
    ∧ snap5.get_significant_token_holdings 5 = [tok5]
    ∧ breakdown_dust_positions [tok5] [] 0 = 1
    ∧ breakdown_significant_positions [tok5] [] 0 = 0 :=
  claim_C5_amended tok5 snap5 rfl rfl rfl rfl

theorem pct_nonneg (e : ScoreEntry) : 0 ≤ pct e :=
  div_nonneg (Nat.cast_nonneg _) (Nat.cast_nonneg _)

theorem scoreEntry_og_max (c : Criteria) :
    (scoreEntry "OG (Conservative)" (_calculate_og_metrics c)).maxPossible = 13 := by
  simp [scoreEntry, _calculate_og_metrics, scoreAccum, weightValue]

theorem scoreEntry_chad_max (c : Criteria) :
    (scoreEntry "DeFi Chad (Moderate)" (_calculate_defi_chad_metrics c)).maxPossible = 11 := by
  simp [scoreEntry, _calculate_defi_chad_metrics, scoreAccum, weightValue]

theorem scoreEntry_degen_max (c : Criteria) :
    (scoreEntry "Degen (Aggressive)" (_calculate_degen_metrics c)).maxPossible = 13 := by
  simp [scoreEntry, _calculate_degen_metrics, scoreAccum, weightValue]

theorem scoreEntry_virgin_max (c : Criteria) :
    (scoreEntry "Virgin CT (Newbie)" (_calculate_virgin_ct_metrics c)).maxPossible = 10 := by
  simp [scoreEntry, _calculate_virgin_ct_metrics, scoreAccum, weightValue]

theorem scoreTable_max_pos (c : Criteria) :
    ∀ e ∈ scoreTable c, 0 < e.maxPossible := by
  intro e he
  simp only [scoreTable, List.mem_cons, List.not_mem_nil, or_false] at he
  rcases he with rfl | rfl | rfl | rfl
  · rw [scoreEntry_og_max]; norm_num
  · rw [scoreEntry_chad_max]; norm_num
  · rw [scoreEntry_degen_max]; norm_num
  · rw [scoreEntry_virgin_max]; norm_num

/-- Invariant of the ranking loop of `_determine_persona`, starting from a
current best `b`: the final best lexicographically dominates (by
percentage, then absolute score) the start and every processed entry. -/
theorem selectBest_go :
    ∀ (l : List ScoreEntry) (b : ScoreEntry),
      (∀ e ∈ l, 0 < e.maxPossible) →
      ∃ b', l.foldl selectStep (some b, pct b) = (some b', pct b')
        ∧ (b' = b ∨ b' ∈ l)
        ∧ pct b ≤ pct b'
        ∧ (pct b = pct b' → b.totalScore ≤ b'.totalScore)
        ∧ ∀ e ∈ l, pct e ≤ pct b' ∧ (pct e = pct b' → e.totalScore ≤ b'.totalScore)
  | [], b, _ =>
      ⟨b, rfl, Or.inl rfl, le_refl _, fun _ => le_refl _, by simp⟩
  | e :: l, b, hgood => by
      have hgl : ∀ x ∈ l, 0 < x.maxPossible :=
        fun x hx => hgood x (List.mem_cons_of_mem _ hx)
      have hge : 0 < e.maxPossible := hgood e (List.mem_cons_self _ _)
      rw [List.foldl_cons]
      by_cases hcond : pct b < pct e ∨ (pct b = pct e ∧ b.totalScore < e.totalScore)
      · have hstep : selectStep (some b, pct b) e = (some e, pct e) := by
          simp only [selectStep, if_pos hge]
          rw [if_pos hcond]
        rw [hstep]
        obtain ⟨b', hfold, hmem, hple, hptot, hall⟩ := selectBest_go l e hgl
        refine ⟨b', hfold, ?_, ?_, ?_, ?_⟩
        · rcases hmem with h | h
          · exact Or.inr (List.mem_cons.mpr (Or.inl h))
          · exact Or.inr (List.mem_cons_of_mem _ h)
        · rcases hcond with h | ⟨h, _⟩
          · exact (le_of_lt h).trans hple
          · exact h ▸ hple
        · intro hbb
          rcases hcond with h | ⟨h, htot⟩
          · exact absurd (hbb ▸ lt_of_lt_of_le h hple) (lt_irrefl _)
          · have heb : pct e = pct b' := by rw [← h, hbb]
            exact (le_of_lt htot).trans (hptot heb)
        · intro x hx
          rcases List.mem_cons.mp hx with rfl | hx'
          · exact ⟨hple, hptot⟩
          · exact hall x hx'
      · have hstep : selectStep (some b, pct b) e = (some b, pct b) := by
          simp only [selectStep, if_pos hge]
          rw [if_neg hcond]
        rw [hstep]
        obtain ⟨b', hfold, hmem, hple, hptot, hall⟩ := selectBest_go l b hgl
        push_neg at hcond
        refine ⟨b', hfold, ?_, hple, hptot, ?_⟩
        · rcases hmem with h | h
          · exact Or.inl h
          · exact Or.inr (List.mem_cons_of_mem _ h)
        · intro x hx
          rcases List.mem_cons.mp hx with rfl | hx'
          · refine ⟨hcond.1.trans hple, ?_⟩
            intro hebb
            have hbb' : pct b = pct b' :=
              le_antisymm hple (hebb ▸ hcond.1)
            have hbe : pct b = pct x := hbb'.trans hebb.symm
            exact (hcond.2 hbe).trans (hptot hbb')
          · exact hall x hx'

/-- The ranking loop selects an entry that dominates every table entry. -/
theorem selectBest_spec (l : List ScoreEntry)
    (hgood : ∀ e ∈ l, 0 < e.maxPossible) (hne : l ≠ []) :
    ∃ b', selectBest l = (some b', pct b') ∧ b' ∈ l
      ∧ ∀ e ∈ l, pct e ≤ pct b' ∧ (pct e = pct b' → e.totalScore ≤ b'.totalScore) := by
  cases l with
  | nil => exact absurd rfl hne
  | cons e l =>
      have hge : 0 < e.maxPossible := hgood e (List.mem_cons_self _ _)
      have hpe : (-1 : ℚ) < pct e := lt_of_lt_of_le (by norm_num) (pct_nonneg e)
      have hstep : selectStep (none, -1) e = (some e, pct e) := by
        simp only [selectStep, if_pos hge]
        rw [if_pos hpe]
      obtain ⟨b', hfold, hmem, hple, hptot, hall⟩ :=
        selectBest_go l e (fun x hx => hgood x (List.mem_cons_of_mem _ hx))
      refine ⟨b', ?_, ?_, ?_⟩
      · unfold selectBest
        rw [List.foldl_cons, hstep, hfold]
      · rcases hmem with h | h
        · exact List.mem_cons.mpr (Or.inl h)
        · exact List.mem_cons_of_mem _ h
      · intro x hx
        rcases List.mem_cons.mp hx with rfl | hx'
        · exact ⟨hple, hptot⟩
        · exact hall x hx'

/-- C1: for every criteria input, `_determine_persona` selects the
archetype whose percentage score (`total_score / max_possible`) is
maximal over the four archetypes, and whenever another archetype has the
same percentage but a different absolute `total_score`, the selected
archetype has the strictly higher `total_score`. -/
theorem claim_C1 (c : Criteria) :
    ∃ b, b ∈ scoreTable c ∧ _determine_persona c = b.name
      ∧ (∀ e ∈ scoreTable c, pct e ≤ pct b)
      ∧ (∀ e ∈ scoreTable c, pct e = pct b → e.totalScore ≠ b.totalScore →
          e.totalScore < b.totalScore) := by
  obtain ⟨b', hfold, hmem, hall⟩ :=
    selectBest_spec (scoreTable c) (scoreTable_max_pos c) (by simp [scoreTable])
  refine ⟨b', hmem, ?_, fun e he => (hall e he).1,
    fun e he hpe hne => lt_of_le_of_ne ((hall e he).2 hpe) hne⟩
  unfold _determine_persona
  rw [hfold]

/-- Witness for C1: the selection property instantiated at a concrete
criteria record. -/
theorem claim_C1_witness :
    ∃ b, b ∈ scoreTable sampleCriteria
      ∧ _determine_persona sampleCriteria = b.name
      ∧ (∀ e ∈ scoreTable sampleCriteria, pct e ≤ pct b)
      ∧ (∀ e ∈ scoreTable sampleCriteria, pct e = pct b →
          e.totalScore ≠ b.totalScore → e.totalScore < b.totalScore) :=
  claim_C1 sampleCriteria

theorem selectStep_keep (b e : ScoreEntry) (hbe : pct e < pct b) :
    selectStep (some b, pct b) e = (some b, pct b) := by
  by_cases hge : 0 < e.maxPossible
  · simp only [selectStep, if_pos hge]
    rw [if_neg]
    rintro (h | ⟨h, _⟩)
    · exact absurd h (not_lt.mpr (le_of_lt hbe))
    · rw [h] at hbe
      exact lt_irrefl _ hbe
  · simp only [selectStep, if_neg hge]

/-- C8: with concentration `0.65`, longest holding `400` days, top value
`$3000`, wallet created in `2019` and a positive native balance, all five
Conservative/OG criteria pass, scoring `13/13` (100%), and whenever every
other archetype scores below 100% the classifier returns
`"OG (Conservative)"`. -/
theorem claim_C8 (c : Criteria)
    (h1 : c.token_concentration = 0.65)
    (h2 : c.longest_holding_days = 400)
    (h3 : c.top_value = 3000)
    (h4 : c.wallet_creation_year = some 2019)
    (h5 : c.has_eth = true)
    (hch : pct (scoreEntry "DeFi Chad (Moderate)" (_calculate_defi_chad_metrics c)) < 1)
    (hdg : pct (scoreEntry "Degen (Aggressive)" (_calculate_degen_metrics c)) < 1)
    (hvg : pct (scoreEntry "Virgin CT (Newbie)" (_calculate_virgin_ct_metrics c)) < 1) :
    scoreEntry "OG (Conservative)" (_calculate_og_metrics c)
      = { name := "OG (Conservative)", totalScore := 13, maxPossible := 13,
          passedMetrics := 5, totalMetrics := 5 }
    ∧ _determine_persona c = "OG (Conservative)" := by
  have e1 : c.token_concentration > 0.6 := by rw [h1]; norm_num
  have e2 : c.longest_holding_days > 365 := by rw [h2]; norm_num
  have e3 : c.top_value < 5000 := by rw [h3]; norm_num
  have hog : scoreEntry "OG (Conservative)" (_calculate_og_metrics c)
      = { name := "OG (Conservative)", totalScore := 13, maxPossible := 13,
          passedMetrics := 5, totalMetrics := 5 } := by
    simp [scoreEntry, _calculate_og_metrics, scoreAccum, weightValue,
      h4, h5, e1, e2, e3]
  have hogp : pct (scoreEntry "OG (Conservative)" (_calculate_og_metrics c)) = 1 := by
    rw [hog]
    norm_num [pct]
  have hogmax : 0 < (scoreEntry "OG (Conservative)" (_calculate_og_metrics c)).maxPossible := by
    rw [scoreEntry_og_max]
    norm_num
  have hstep1 : selectStep (none, -1)
      (scoreEntry "OG (Conservative)" (_calculate_og_metrics c))
      = (some (scoreEntry "OG (Conservative)" (_calculate_og_metrics c)),
         pct (scoreEntry "OG (Conservative)" (_calculate_og_metrics c))) := by
    simp only [selectStep, if_pos hogmax]
    rw [if_pos (lt_of_lt_of_le (by norm_num)
      (pct_nonneg (scoreEntry "OG (Conservative)" (_calculate_og_metrics c))))]
  have hc1 : pct (scoreEntry "DeFi Chad (Moderate)" (_calculate_defi_chad_metrics c))
      < pct (scoreEntry "OG (Conservative)" (_calculate_og_metrics c)) := by
    rw [hogp]; exact hch
  have hc2 : pct (scoreEntry "Degen (Aggressive)" (_calculate_degen_metrics c))
      < pct (scoreEntry "OG (Conservative)" (_calculate_og_metrics c)) := by
    rw [hogp]; exact hdg
  have hc3 : pct (scoreEntry "Virgin CT (Newbie)" (_calculate_virgin_ct_metrics c))
      < pct (scoreEntry "OG (Conservative)" (_calculate_og_metrics c)) := by
    rw [hogp]; exact hvg
  refine ⟨hog, ?_⟩
  unfold _determine_persona selectBest scoreTable
  rw [List.foldl_cons, hstep1, List.foldl_cons, selectStep_keep _ _ hc1,
    List.foldl_cons, selectStep_keep _ _ hc2,
    List.foldl_cons, selectStep_keep _ _ hc3, List.foldl_nil]
  rw [hog]

/-- Witness for C8 at the concrete scenario criteria `sampleCriteria`. -/
theorem claim_C8_witness :
    scoreEntry "OG (Conservative)" (_calculate_og_metrics sampleCriteria)
      = { name := "OG (Conservative)", totalScore := 13, maxPossible := 13,
          passedMetrics := 5, totalMetrics := 5 }
    ∧ _determine_persona sampleCriteria = "OG (Conservative)" := by
  have hch : scoreEntry "DeFi Chad (Moderate)"
      (_calculate_defi_chad_metrics sampleCriteria)
      = { name := "DeFi Chad (Moderate)", totalScore := 8, maxPossible := 11,
          passedMetrics := 3, totalMetrics := 4 } := by
    have e1 : ((400 : ℤ) > 90) := by norm_num
    have e2 : ((0.65 : ℚ) > 0.5) := by norm_num
    have e3 : ¬ ((0 : ℕ) > 120) := by norm_num
    have e4 : ((2000 : ℚ) < 3000 ∧ (3000 : ℚ) < 5000) := by norm_num
    simp [scoreEntry, _calculate_defi_chad_metrics, scoreAccum, weightValue,
      sampleCriteria, e1, e2, e3, e4]
  have hdg : scoreEntry "Degen (Aggressive)"
      (_calculate_degen_metrics sampleCriteria)
      = { name := "Degen (Aggressive)", totalScore := 0, maxPossible := 13,
          passedMetrics := 0, totalMetrics := 5 } := by
    have e1 : ¬ ((0 : ℕ) > 180) := by norm_num
    have e2 : ¬ ((0 : ℕ) > 100) := by norm_num
    have e3 : ¬ ((400 : ℤ) < 90) := by norm_num
    have e4 : ¬ ((0.65 : ℚ) > 0.7) := by norm_num
    simp [scoreEntry, _calculate_degen_metrics, scoreAccum, weightValue,
      sampleCriteria, e1, e2, e3, e4]
  have hvg : scoreEntry "Virgin CT (Newbie)"
      (_calculate_virgin_ct_metrics sampleCriteria)
      = { name := "Virgin CT (Newbie)", totalScore := 5, maxPossible := 10,
          passedMetrics := 2, totalMetrics := 4 } := by
    have e1 : ¬ ((2019 : ℤ) > 2023) := by norm_num
    have e2 : ¬ ((0 : ℕ) > 30) := by norm_num
    have e3 : ((3000 : ℚ) < 5000) := by norm_num
    have e4 : ((0 : ℕ) < 50) := by norm_num
    simp [scoreEntry, _calculate_virgin_ct_metrics, scoreAccum, weightValue,
      sampleCriteria, e1, e2, e3, e4]
  exact claim_C8 sampleCriteria rfl rfl rfl rfl rfl
    (by rw [hch]; norm_num [pct])
    (by rw [hdg]; norm_num [pct])
    (by rw [hvg]; norm_num [pct])

theorem mem_insertNew (s : List String) (c x : String) :
    x ∈ insertNew s c ↔ x ∈ s ∨ x = c := by
  unfold insertNew
  by_cases hc : c ∈ s
  · rw [if_pos hc]
    constructor
    · exact Or.inl
    · rintro (h | rfl)
      · exact h
      · exact hc
  · rw [if_neg hc]
    simp

theorem insertNew_nodup (s : List String) (c : String) (h : s.Nodup) :
    (insertNew s c).Nodup := by
  unfold insertNew
  by_cases hc : c ∈ s
  · rwa [if_pos hc]
  · rw [if_neg hc]
    simp [List.nodup_append, h, hc]

theorem insertNew_cons (k c : String) (s : List String) (hk : k ≠ c) :
    insertNew (k :: s) c = k :: insertNew s c := by
  unfold insertNew
  by_cases hc : c ∈ s
  · rw [if_pos (List.mem_cons_of_mem _ hc), if_pos hc]
  · rw [if_neg (by simp [hc, Ne.symm hk]), if_neg hc]
    rfl

theorem foldl_insertNew_nodup :
    ∀ (l : List String) (s : List String), s.Nodup → (l.foldl insertNew s).Nodup
  | [], s, h => h
  | c :: l, s, h =>
      foldl_insertNew_nodup l (insertNew s c) (insertNew_nodup s c h)

theorem mem_foldl_insertNew :
    ∀ (l : List String) (s : List String) (x : String),
      x ∈ l.foldl insertNew s ↔ x ∈ s ∨ x ∈ l
  | [], s, x => by simp
  | c :: l, s, x => by
      rw [List.foldl_cons, mem_foldl_insertNew l (insertNew s c) x, mem_insertNew]
      simp [or_assoc, or_comm, or_left_comm]

theorem updateGroups_keys :
    ∀ (gs : List (String × List TokenTransferEvent)) (h : String)
      (t : TokenTransferEvent),
      (updateGroups gs h t).map Prod.fst = insertNew (gs.map Prod.fst) h
  | [], h, t => by simp [updateGroups, insertNew]
  | (k, l) :: gs, h, t => by
      by_cases hk : k = h
      · subst hk
        simp [updateGroups, insertNew]
      · rw [show updateGroups ((k, l) :: gs) h t
              = (k, l) :: updateGroups gs h t from by simp [updateGroups, hk]]
        rw [List.map_cons, updateGroups_keys gs h t, List.map_cons,
          insertNew_cons k h (gs.map Prod.fst) hk]

theorem groupSize_update :
    ∀ (gs : List (String × List TokenTransferEvent)) (h : String)
      (t : TokenTransferEvent) (x : String),
      groupSize (updateGroups gs h t) x
        = groupSize gs x + (if x = h then 1 else 0)
  | [], h, t, x => by
      by_cases hx : x = h
      · subst hx
        simp [groupSize, updateGroups, List.filter_cons]
      · simp [groupSize, updateGroups, List.filter_cons, hx, Ne.symm hx]
  | (k, l) :: gs, h, t, x => by
      by_cases hk : k = h
      · subst hk
        rw [show updateGroups ((k, l) :: gs) k t
              = (k, l ++ [t]) :: gs from by simp [updateGroups]]
        by_cases hx : x = k
        · subst hx
          simp [groupSize, List.filter_cons]
          try omega
        · simp [groupSize, List.filter_cons, hx, Ne.symm hx]
      · rw [show updateGroups ((k, l) :: gs) h t
              = (k, l) :: updateGroups gs h t from by simp [updateGroups, hk]]
        by_cases hx : x = k
        · subst hx
          simp only [groupSize, List.filter_cons]
          rw [if_pos (by simp), if_pos (by simp)]
          have := groupSize_update gs h t x
          simp only [groupSize] at this
          simp [this, hk]
          try omega
        · simp only [groupSize, List.filter_cons]
          rw [if_neg (by simp [Ne.symm hx]), if_neg (by simp [Ne.symm hx])]
          exact groupSize_update gs h t x

theorem groupSize_of_not_mem
    (gs : List (String × List TokenTransferEvent)) (x : String)
    (hx : x ∉ gs.map Prod.fst) : groupSize gs x = 0 := by
  induction gs with
  | nil => simp [groupSize]
  | cons g gs ih =>
      simp only [List.map_cons, List.mem_cons] at hx
      push_neg at hx
      simp only [groupSize, List.filter_cons]
      rw [if_neg (by simp [Ne.symm hx.1])]
      exact ih hx.2

theorem entry_length_eq_groupSize :
    ∀ (gs : List (String × List TokenTransferEvent)),
      (gs.map Prod.fst).Nodup →
      ∀ g ∈ gs, g.2.length = groupSize gs g.1
  | [], _, g, hg => by simp at hg
  | (k, l) :: gs, hnd, g, hg => by
      simp only [List.map_cons, List.nodup_cons] at hnd
      rcases List.mem_cons.mp hg with hgeq | hg'
      · have h0 : groupSize gs g.1 = 0 :=
          groupSize_of_not_mem gs g.1 (by rw [hgeq]; exact hnd.1)
        simp only [groupSize, List.filter_cons]
        rw [if_pos (by simp [hgeq])]
        simp only [List.map_cons, List.sum_cons]
        simp only [groupSize] at h0
        rw [h0, hgeq]
        simp
      · have hne : g.1 ≠ k := by
          intro hgk
          exact hnd.1 (hgk ▸ List.mem_map_of_mem Prod.fst hg')
        simp only [groupSize, List.filter_cons]
        rw [if_neg (by simpa using Ne.symm hne)]
        exact entry_length_eq_groupSize gs hnd.2 g hg'

theorem foldl_update_keys :
    ∀ (ps : List (String × TokenTransferEvent))
      (gs : List (String × List TokenTransferEvent)),
      ((ps.foldl (fun gs p => updateGroups gs p.1 p.2) gs).map Prod.fst)
        = (ps.map Prod.fst).foldl insertNew (gs.map Prod.fst)
  | [], gs => rfl
  | p :: ps, gs => by
      rw [List.foldl_cons, List.map_cons, List.foldl_cons,
        foldl_update_keys ps (updateGroups gs p.1 p.2), updateGroups_keys]

theorem foldl_update_groupSize :
    ∀ (ps : List (String × TokenTransferEvent))
      (gs : List (String × List TokenTransferEvent)) (x : String),
      groupSize (ps.foldl (fun gs p => updateGroups gs p.1 p.2) gs) x
        = groupSize gs x + (ps.map Prod.fst).count x
  | [], gs, x => by simp
  | p :: ps, gs, x => by
      rw [List.foldl_cons, foldl_update_groupSize ps (updateGroups gs p.1 p.2) x,
        groupSize_update, List.map_cons]
      by_cases hx : x = p.1
      · rw [if_pos hx, hx, List.count_cons_self]
        omega
      · rw [if_neg hx, List.count_cons_of_ne hx]
        omega

theorem swap_foldl_eq (since : ℤ) :
    ∀ (ts : List TokenTransferEvent)
      (st : List (String × List TokenTransferEvent) × List String),
      ts.foldl (swapStep since) st
        = (eligiblePairs since ts).foldl
            (fun st p =>
              (updateGroups st.1 p.1 p.2,
               match p.2.contractAddress with
               | none => st.2
               | some c => insertNew st.2 (strLower c))) st
  | [], st => rfl
  | t :: ts, st => by
      rw [List.foldl_cons]
      cases ht : t.timeStamp with
      | none =>
          rw [show swapStep since st t = st from by simp [swapStep, ht]]
          rw [show eligiblePairs since (t :: ts) = eligiblePairs since ts from by
            simp [eligiblePairs, List.filterMap_cons, ht]]
          exact swap_foldl_eq since ts st
      | some s =>
          by_cases hw : since ≤ s
          · cases hh : t.hash with
            | none =>
                rw [show swapStep since st t = st from by
                  simp [swapStep, ht, hw, hh]]
                rw [show eligiblePairs since (t :: ts) = eligiblePairs since ts from by
                  simp [eligiblePairs, List.filterMap_cons, ht, hw, hh]]
                exact swap_foldl_eq since ts st
            | some h =>
                rw [show swapStep since st t
                    = (updateGroups st.1 h t,
                       match t.contractAddress with
                       | none => st.2
                       | some c => insertNew st.2 (strLower c)) from by
                  simp [swapStep, ht, hw, hh]]
                rw [show eligiblePairs since (t :: ts)
                    = (h, t) :: eligiblePairs since ts from by
                  simp [eligiblePairs, List.filterMap_cons, ht, hw, hh]]
                rw [List.foldl_cons]
                exact swap_foldl_eq since ts _
          · rw [show swapStep since st t = st from by simp [swapStep, ht, hw]]
            rw [show eligiblePairs since (t :: ts) = eligiblePairs since ts from by
              simp [eligiblePairs, List.filterMap_cons, ht, hw]]
            exact swap_foldl_eq since ts st

theorem pairFold_fst :
    ∀ (ps : List (String × TokenTransferEvent))
      (st : List (String × List TokenTransferEvent) × List String),
      (ps.foldl (fun st p =>
          (updateGroups st.1 p.1 p.2,
           match p.2.contractAddress with
           | none => st.2
           | some c => insertNew st.2 (strLower c))) st).1
        = ps.foldl (fun gs p => updateGroups gs p.1 p.2) st.1
  | [], st => rfl
  | p :: ps, st => by
      rw [List.foldl_cons, List.foldl_cons]
      exact pairFold_fst ps _

theorem eligible_map_fst (since : ℤ) :
    ∀ (ts : List TokenTransferEvent),
      (eligiblePairs since ts).map Prod.fst = inWindowHashes since ts
  | [] => rfl
  | t :: ts => by
      cases ht : t.timeStamp with
      | none =>
          simp only [eligiblePairs, inWindowHashes, List.filterMap_cons, ht]
          exact eligible_map_fst since ts
      | some s =>
          by_cases hw : since ≤ s
          · cases hh : t.hash with
            | none =>
                simp only [eligiblePairs, inWindowHashes, List.filterMap_cons,
                  ht, if_pos hw, hh]
                exact eligible_map_fst since ts
            | some h =>
                simp only [eligiblePairs, inWindowHashes, List.filterMap_cons,
                  ht, if_pos hw, hh, List.map_cons]
                exact congrArg (List.cons h) (eligible_map_fst since ts)
          · simp only [eligiblePairs, inWindowHashes, List.filterMap_cons,
              ht, if_neg hw]
            exact eligible_map_fst since ts

/-- C6: `analyze_swap_activity` reports `dex_interactions` equal to the
number of distinct in-window transaction hashes, and counts as swaps
exactly the distinct hashes with two or more in-window transfer records —
so a hash with two or more records contributes exactly one swap and a
hash with exactly one record contributes zero. -/
theorem claim_C6 (since : ℤ) (transfers : List TokenTransferEvent) :
    (analyze_swap_activity since transfers).dex_interactions
        = (distinctHashes since transfers).length
    ∧ (distinctHashes since transfers).Nodup
    ∧ (∀ h, h ∈ distinctHashes since transfers ↔ h ∈ inWindowHashes since transfers)
    ∧ (analyze_swap_activity since transfers).swap_count
        = ((distinctHashes since transfers).filter
            (fun h => 2 ≤ (inWindowHashes since transfers).count h)).length := by
  have hgroups : (transfers.foldl (swapStep since) ([], [])).1
      = (eligiblePairs since transfers).foldl
          (fun gs p => updateGroups gs p.1 p.2) [] := by
    rw [swap_foldl_eq, pairFold_fst]
  have hkeys : ((transfers.foldl (swapStep since) ([], [])).1).map Prod.fst
      = distinctHashes since transfers := by
    rw [hgroups, foldl_update_keys]
    simp only [List.map_nil]
    rw [eligible_map_fst]
    rfl
  have hnodup : (distinctHashes since transfers).Nodup := by
    unfold distinctHashes
    exact foldl_insertNew_nodup _ [] (by simp)
  have hsize : ∀ g ∈ (transfers.foldl (swapStep since) ([], [])).1,
      g.2.length = (inWindowHashes since transfers).count g.1 := by
    intro g hg
    have h1 : g.2.length
        = groupSize ((transfers.foldl (swapStep since) ([], [])).1) g.1 :=
      entry_length_eq_groupSize _ (by rw [hkeys]; exact hnodup) g hg
    rw [h1, hgroups, foldl_update_groupSize, eligible_map_fst]
    simp [groupSize]
  refine ⟨?_, hnodup, ?_, ?_⟩
  · show ((transfers.foldl (swapStep since) ([], [])).1).length = _
    rw [← hkeys, List.length_map]
  · intro h
    unfold distinctHashes
    rw [mem_foldl_insertNew]
    simp
  · show ((transfers.foldl (swapStep since) ([], [])).1.filter
        (fun g => 2 ≤ g.2.length)).length = _
    have hcongr : (transfers.foldl (swapStep since) ([], [])).1.filter
          (fun g => 2 ≤ g.2.length)
        = (transfers.foldl (swapStep since) ([], [])).1.filter
          (fun g => 2 ≤ (inWindowHashes since transfers).count g.1) := by
      apply List.filter_congr
      intro g hg
      rw [hsize g hg]
    rw [hcongr, ← hkeys]
    rw [show ((transfers.foldl (swapStep since) ([], [])).1.map Prod.fst).filter
          (fun h => 2 ≤ (inWindowHashes since transfers).count h)
        = ((transfers.foldl (swapStep since) ([], [])).1.filter
          (fun g => 2 ≤ (inWindowHashes since transfers).count g.1)).map Prod.fst
      from List.filter_map _ _]
    rw [List.length_map]

/-- C9: if gathering the portfolio, activity, swap, or wallet-creation
data raises (modelled as an `Except.error` input), then
`classify_persona_with_details` returns the sentinel
`("Error", {}, [])` outcome; the exception is never propagated. -/
theorem claim_C9 (pr : Except String PortfolioSnapshot)
    (ar : Except String ActivityResult)
    (sr : Except String SwapActivityResult)
    (cr : Except String (Option ℤ))
    (herr : pr.isOk = false ∨ ar.isOk = false ∨ sr.isOk = false
      ∨ cr.isOk = false) :
    classify_persona_with_details pr ar sr cr
      = { persona := "Error", criteria := none, detailed_metrics := [] } := by
  cases pr <;> cases ar <;> cases sr <;> cases cr <;>
    first
      | rfl
      | simp [Except.isOk, Except.toBool] at herr

/-- Witness for C9: a failing portfolio fetch yields the sentinel. -/
theorem claim_C9_witness :
    classify_persona_with_details (Except.error "portfolio fetch failed")
      (Except.ok { active_days := 0, total_transactions := 0 })
      (Except.ok { swap_count := 0, unique_tokens := 0, dex_interactions := 0 })
      (Except.ok none)
      = { persona := "Error", criteria := none, detailed_metrics := [] } :=
  claim_C9 _ _ _ _ (Or.inl rfl)

end Persona